import Mathlib

/-!
Verification development for the intercepting reverse proxy in
`frontend-proxy/main.py`.

The proxy is a single FastAPI handler `proxy_request` registered on the
catch-all route `/{path:path}` for methods GET, POST, PUT, DELETE.  It
reads the request body once, optionally emits a cart-add event to an MCP
collector when the request is `POST /cart`, then forwards the request to
a fixed upstream and relays the upstream response.

The embedding below translates the handler into a pure Lean function
that, besides the handler's return value, produces an explicit trace of
its outbound effects (body read, collector POST, upstream forward), so
that call counts and ordering are provable.  External peers (the
upstream origin and the event collector) are parameters: oracles mapping
the outgoing request to an outcome, where `none` / `.exn` stands for the
corresponding Python `requests` call raising an exception.
-/

namespace FrontendProxy

/-- Bytes are modelled as natural numbers < 256 (we never rely on the
bound, so plain `Nat` keeps the definitions simple). -/
abbrev Byte := Nat

/-- Python `str` values inside the parsing pipeline are lists of
unicode code points (`Char`), converted to `String` at the API
boundary. -/
abbrev PyStr := List Char

/-! ### UTF-8, modelling `bytes.decode()` and `str.encode()` -/

/-- Is `b` a UTF-8 continuation byte (`0x80 ≤ b ≤ 0xBF`)? -/
def isCont (b : Byte) : Bool := 0x80 ≤ b && b ≤ 0xBF

/-- Payload of a continuation byte. -/
def contVal (b : Byte) : Nat := b - 0x80

/-- One step of strict UTF-8 decoding: the first code point of the
byte list and the remaining bytes, or `none` on an invalid, truncated,
overlong or surrogate-encoding sequence (all rejected, as CPython's
strict decoder does). -/
def utf8SplitOne : List Byte → Option (Char × List Byte)
  | [] => none
  | b :: bs =>
    if b ≤ 0x7F then some (Char.ofNat b, bs)
    else if 0xC2 ≤ b && b ≤ 0xDF then
      match bs with
      | b1 :: bs' =>
        if isCont b1 then
          some (Char.ofNat ((b - 0xC0) * 0x40 + contVal b1), bs')
        else none
      | _ => none
    else if 0xE0 ≤ b && b ≤ 0xEF then
      match bs with
      | b1 :: b2 :: bs' =>
        if ((if b = 0xE0 then 0xA0 else 0x80) ≤ b1 &&
              b1 ≤ (if b = 0xED then 0x9F else 0xBF)) && isCont b2 then
          some (Char.ofNat ((b - 0xE0) * 0x1000 + contVal b1 * 0x40 + contVal b2), bs')
        else none
      | _ => none
    else if 0xF0 ≤ b && b ≤ 0xF4 then
      match bs with
      | b1 :: b2 :: b3 :: bs' =>
        if ((if b = 0xF0 then 0x90 else 0x80) ≤ b1 &&
              b1 ≤ (if b = 0xF4 then 0x8F else 0xBF)) && isCont b2 && isCont b3 then
          some (Char.ofNat ((b - 0xF0) * 0x40000 + contVal b1 * 0x1000 +
            contVal b2 * 0x40 + contVal b3), bs')
        else none
      | _ => none
    else none

/-- Recursion workhorse for `utf8Decode`, structural on a fuel counter
so that concrete instances reduce in the kernel.  `utf8SplitOne`
consumes at least one byte per step, so a fuel of `bs.length` (as the
wrapper passes) always suffices and the `0, _ :: _` arm is never
reached. -/
def utf8DecodeFuel : Nat → List Byte → Option PyStr
  | _, [] => some []
  | 0, _ :: _ => none
  | fuel + 1, b :: bs =>
    match utf8SplitOne (b :: bs) with
    | some (c, rest) => (utf8DecodeFuel fuel rest).map (fun cs => c :: cs)
    | none => none

/-- Strict UTF-8 decoding of a byte list, modelling Python's
`bytes.decode()` (default `utf-8`, `errors='strict'`): `none` models a
`UnicodeDecodeError`. -/
def utf8Decode (bs : List Byte) : Option PyStr := utf8DecodeFuel bs.length bs

/-- UTF-8 encoding of one code point (the inverse used when a `str` is
sent on the wire or fed to percent-decoding). -/
def charUtf8 (c : Char) : List Byte :=
  let n := c.toNat
  if n ≤ 0x7F then [n]
  else if n ≤ 0x7FF then [0xC0 + n / 0x40, 0x80 + n % 0x40]
  else if n ≤ 0xFFFF then
    [0xE0 + n / 0x1000, 0x80 + n / 0x40 % 0x40, 0x80 + n % 0x40]
  else
    [0xF0 + n / 0x40000, 0x80 + n / 0x1000 % 0x40, 0x80 + n / 0x40 % 0x40,
      0x80 + n % 0x40]

/-- UTF-8 encoding of a string, modelling Python `str.encode()`. -/
def strBytes (s : String) : List Byte := (s.data.map charUtf8).flatten

/-! ### `urllib.parse.parse_qs`, as called by the handler -/

/-- Value of a hexadecimal digit character (`0-9`, `a-f`, `A-F`),
modelling the digit table `urllib.parse` uses for percent-escapes;
`none` on every other character. -/
def hexVal (c : Char) : Option Nat :=
  let n := c.toNat
  if 0x30 ≤ n ∧ n ≤ 0x39 then some (n - 0x30)
  else if 0x61 ≤ n ∧ n ≤ 0x66 then some (n - 0x61 + 10)
  else if 0x41 ≤ n ∧ n ≤ 0x46 then some (n - 0x41 + 10)
  else none

/-- Recursion workhorse for `utf8DecodeReplace`, structural on a fuel
counter (a fuel of `bs.length` always suffices, as each step consumes
at least one byte). -/
def utf8DecodeReplaceFuel : Nat → List Byte → PyStr
  | _, [] => []
  | 0, _ :: _ => []
  | fuel + 1, b :: bs =>
    match utf8SplitOne (b :: bs) with
    | some (c, rest) => c :: utf8DecodeReplaceFuel fuel rest
    | none => Char.ofNat 0xFFFD :: utf8DecodeReplaceFuel fuel bs

/-- Decode a byte list to characters with U+FFFD replacement on invalid
sequences, modelling the `errors='replace'` handler that
`urllib.parse.unquote` applies to percent-decoded bytes (one
replacement character per rejected byte). -/
def utf8DecodeReplace (bs : List Byte) : PyStr := utf8DecodeReplaceFuel bs.length bs

/-- Scan of `urllib.parse.unquote`: runs of `%hh` escapes are collected
into a byte buffer and decoded together (with replacement); a `%` not
followed by two hex digits is kept literally; other characters pass
through, flushing any pending escape run, as CPython's split-on-`%`
algorithm effects. -/
def unquoteAuxFuel : Nat → PyStr → List Byte → PyStr
  | _, [], pending => utf8DecodeReplace pending.reverse
  | 0, _ :: _, _ => []
  | fuel + 1, c :: rest, pending =>
    if c = '%' then
      match rest with
      | h1 :: h2 :: rest' =>
        match hexVal h1, hexVal h2 with
        | some v1, some v2 => unquoteAuxFuel fuel rest' ((v1 * 16 + v2) :: pending)
        | _, _ => utf8DecodeReplace pending.reverse ++ ('%' :: unquoteAuxFuel fuel rest [])
      | _ => utf8DecodeReplace pending.reverse ++ ('%' :: unquoteAuxFuel fuel rest [])
    else utf8DecodeReplace pending.reverse ++ (c :: unquoteAuxFuel fuel rest [])

/-- `urllib.parse.unquote` on a `str` (fuel `s.length` always
suffices: each step of the scan consumes at least one character). -/
def unquote (s : PyStr) : PyStr := unquoteAuxFuel s.length s []

/-- `'+'` → space, applied to names and values before `unquote`, as in
`urllib.parse.parse_qsl`. -/
def plusToSpace (s : PyStr) : PyStr := s.map (fun c => if c = '+' then ' ' else c)

/-- Split a string on a separator character, modelling `str.split(sep)`
for a one-character separator. -/
def splitOnChar (sep : Char) : PyStr → List PyStr
  | [] => [[]]
  | c :: cs =>
    let r := splitOnChar sep cs
    if c = sep then [] :: r
    else
      match r with
      | [] => [[c]]
      | g :: gs => (c :: g) :: gs

/-- Split at the first `'='`, modelling `name_value.split('=', 1)`:
`none` when the string has no `'='`. -/
def splitFirstEq : PyStr → Option (PyStr × PyStr)
  | [] => none
  | c :: cs =>
    if c = '=' then some ([], cs)
    else (splitFirstEq cs).map (fun p => (c :: p.1, p.2))

/-- `urllib.parse.parse_qsl` with the handler's (default) arguments:
`keep_blank_values=False`, `strict_parsing=False`, separator `'&'`.
Empty segments, segments without `'='` and segments with an empty value
are skipped; names and values get `'+'` → space then percent-decoding. -/
def parse_qsl (qs : PyStr) : List (String × String) :=
  if qs = [] then []
  else
    (splitOnChar '&' qs).filterMap (fun nv =>
      if nv = [] then none
      else
        match splitFirstEq nv with
        | none => none
        | some (name, value) =>
          if value = [] then none
          else
            some (⟨unquote (plusToSpace name)⟩, ⟨unquote (plusToSpace value)⟩))

/-- Group the pairs of `parse_qsl` into a `name → list of values` map
(association list in first-appearance order), as `parse_qs` builds its
result dict. -/
def groupPairs (acc : List (String × List String)) :
    List (String × String) → List (String × List String)
  | [] => acc
  | (k, v) :: rest =>
    if acc.any (fun p => p.1 = k) then
      groupPairs (acc.map (fun p => if p.1 = k then (p.1, p.2 ++ [v]) else p)) rest
    else
      groupPairs (acc ++ [(k, [v])]) rest

/-- `urllib.parse.parse_qs` with default arguments, as called at
`main.py:35`. -/
def parse_qs (qs : PyStr) : List (String × List String) :=
  groupPairs [] (parse_qsl qs)

/-- `form_data.get(key, [None])[0]`: the first value of the key's value
list, or `none` when the key is absent (`main.py:38-39`). -/
def getFirst (d : List (String × List String)) (k : String) : Option String :=
  ((d.lookup k).getD []).head?

/-- Python truthiness of an optional string, as tested by
`if product_id:` at `main.py:42` (`None` and `""` are falsy). -/
def pyTruthy : Option String → Bool
  | none => false
  | some s => s ≠ ""

/-! ### Data model -/

/-- An incoming HTTP request as the ASGI stack hands it to the handler:
`method` and `path` come from the route match (`/{path:path}` captures
the path portion only — never the query string, which is carried
separately and which `proxy_request` does not consult), `headers` are
the raw wire header name/value pairs, `cookies` the parsed cookie
name/value pairs, `bodyBytes` the raw body. -/
structure IncomingRequest where
  method : String
  path : String
  query : String
  headers : List (String × String)
  cookies : List (String × String)
  bodyBytes : List Byte
  deriving DecidableEq, Repr

/-- ASCII lowercasing of a header name, as Starlette normalises wire
header names. -/
def lowerName (s : String) : String := ⟨s.data.map Char.toLower⟩

/-- Starlette's `request.headers.items()` yields lowercased header
names; `main.py:60` iterates over that view. -/
def starletteHeaders (hs : List (String × String)) : List (String × String) :=
  hs.map (fun p => (lowerName p.1, p.2))

/-- One assignment `d[key] = value` into a Python dict rendered as an
insertion-ordered association list: an existing key keeps its position
and gets the new value; a new key is appended. -/
def dictInsert (acc : List (String × String)) (kv : String × String) :
    List (String × String) :=
  if acc.any (fun p => p.1 = kv.1) then
    acc.map (fun p => if p.1 = kv.1 then (p.1, kv.2) else p)
  else acc ++ [kv]

/-- The dict comprehension at `main.py:60` as a function of the pair
sequence it iterates: a Python dict built by successive assignment, so
a repeated key collapses to a single entry — first-occurrence position,
last value wins. -/
def pyDict (l : List (String × String)) : List (String × String) :=
  l.foldl dictInsert []

/-- The `data` object of the cart-add event (`main.py:47`);
`quantity = none` models JSON `null`. -/
structure CartEventData where
  user_id : String
  product_id : String
  quantity : Option String
  deriving DecidableEq, Repr

/-- The cart-add event JSON built at `main.py:44-48`. -/
structure CartEvent where
  topic : String
  event : String
  data : CartEventData
  deriving DecidableEq, Repr

/-- The outbound request `requests.request(...)` receives at
`main.py:57-64`. -/
structure ForwardedRequest where
  method : String
  url : String
  headers : List (String × String)
  body : List Byte
  cookies : List (String × String)
  allow_redirects : Bool
  deriving DecidableEq, Repr

/-- An HTTP response: the shape both of the upstream's reply and of the
`Response(content=..., status_code=..., headers=...)` the handler
returns (`main.py:67`). -/
structure HttpResponse where
  status_code : Nat
  headers : List (String × String)
  content : List Byte
  deriving DecidableEq, Repr

/-- Outcome of a Python `requests` call: it either returns a response
object or raises (connection error / timeout). -/
inductive PyOutcome (α : Type)
  | ok (resp : α)
  | exn
  deriving DecidableEq, Repr

/-- The upstream origin, as an oracle from the forwarded request to the
outcome of `requests.request` at `main.py:57`. -/
def Upstream := ForwardedRequest → PyOutcome HttpResponse

/-- The event collector, as an oracle from the posted event to the
outcome of `requests.post` at `main.py:49` (`.ok status` covers any
status, 2xx or not — the handler never reads it; `.exn` covers raising
or timing out). -/
def Collector := CartEvent → PyOutcome Nat

/-- One outbound effect of the handler, in program order. -/
inductive Effect
  | readBody (result : List Byte)
  | collectorPost (url : String) (event : CartEvent) (timeout : Nat)
  | forward (req : ForwardedRequest)
  deriving DecidableEq, Repr

/-- The event-collector calls recorded in a trace. -/
def collectorCalls (t : List Effect) : List (String × CartEvent × Nat) :=
  t.filterMap (fun e =>
    match e with
    | .collectorPost url ev tmo => some (url, ev, tmo)
    | _ => none)

/-- The upstream forward calls recorded in a trace. -/
def forwardCalls (t : List Effect) : List ForwardedRequest :=
  t.filterMap (fun e =>
    match e with
    | .forward req => some req
    | _ => none)

/-- The body reads recorded in a trace. -/
def bodyReads (t : List Effect) : List (List Byte) :=
  t.filterMap (fun e =>
    match e with
    | .readBody b => some b
    | _ => none)

/-! ### Configuration (`main.py:7-11`) -/

/-- `REAL_FRONTEND_URL` (`main.py:9`). -/
def REAL_FRONTEND_URL : String := "http://frontend-real:8080"

/-- `TOOLBOX_URL` with the default environment
(`TOOLBOX_SERVICE_HOST`/`PORT` unset, `main.py:11`). -/
def TOOLBOX_URL : String := "http://mcp-toolbox-service:8080"

/-! ### The handler -/

/-- The body of the `try:` block at `main.py:32-50`, given the cached
body bytes and the request cookies.  Returns the effects it performed
together with the block's outcome (`.error` models an exception that
the `except` clause at `main.py:52` then swallows): a
`UnicodeDecodeError` from `body.decode()`, or a `requests` exception
from the collector POST. -/
def interception (collector : Collector) (body : List Byte)
    (cookies : List (String × String)) : List Effect × Except String Unit :=
  match utf8Decode body with
  | none => ([], .error "UnicodeDecodeError")
  | some decoded =>
    let form_data := parse_qs decoded
    let product_id := getFirst form_data "product_id"
    let quantity := getFirst form_data "quantity"
    let user_id := (cookies.lookup "session_id").getD "unknown_user"
    if pyTruthy product_id then
      let event : CartEvent :=
        { topic := "user-activity"
          event := "item_added_to_cart"
          data := { user_id := user_id, product_id := product_id.getD ""
                    quantity := quantity } }
      ([Effect.collectorPost (TOOLBOX_URL ++ "/mcp") event 1],
        match collector event with
        | .ok _ => .ok ()
        | .exn => .error "requests exception")
    else ([], .ok ())

/-- The argument object of the forward call, exactly as assembled at
`main.py:57-64`: original method, fixed upstream base plus path, the
headers dict built by the comprehension at `main.py:60` — iterating the
lowercased header view, keeping `key != 'host'`, and collapsing any
repeated (case-insensitively equal) name to its last value, as a dict
does — the cached body, the request cookies, and
`allow_redirects=False`. -/
def forwardReq (req : IncomingRequest) : ForwardedRequest :=
  { method := req.method
    url := REAL_FRONTEND_URL ++ "/" ++ req.path
    headers := pyDict ((starletteHeaders req.headers).filter (fun kv => kv.1 ≠ "host"))
    body := req.bodyBytes
    cookies := req.cookies
    allow_redirects := false }

/-- Result of one handler invocation: the outbound-effect trace and
either the `Response` the handler returns or the exception escaping it
(`.error`). -/
structure HandlerOutput where
  trace : List Effect
  result : Except String HttpResponse

instance : DecidableEq (Except String HttpResponse) := fun x y =>
  match x, y with
  | .ok a, .ok b =>
    if h : a = b then .isTrue (by rw [h]) else .isFalse (by simp [h])
  | .error a, .error b =>
    if h : a = b then .isTrue (by rw [h]) else .isFalse (by simp [h])
  | .ok _, .error _ => .isFalse (by simp)
  | .error _, .ok _ => .isFalse (by simp)

/-- The handler `proxy_request` (`main.py:16-67`), as a function of the
two external peers and the incoming request.  Follows the source line
by line: read the body once (line 22), compute the target URL
(line 25), run the guarded interception inside `try/except`
(lines 29-54, the block's exception outcome is discarded), forward with
`Host` filtered out of the lowercased header view and redirects not
followed (lines 57-64), and relay the upstream response (line 67).  If
the forward itself raises, nothing catches it and the exception escapes
the handler. -/
def proxy_request (upstream : Upstream) (collector : Collector)
    (req : IncomingRequest) : HandlerOutput :=
  let body := req.bodyBytes
  let readEff := [Effect.readBody body]
  let interEffs :=
    if req.method = "POST" ∧ req.path = "cart" then
      (interception collector body req.cookies).1
    else []
  let fwd : ForwardedRequest := forwardReq req
  let trace := readEff ++ interEffs ++ [Effect.forward fwd]
  match upstream fwd with
  | .exn => { trace := trace, result := .error "requests exception" }
  | .ok resp =>
    { trace := trace
      result := .ok { status_code := resp.status_code, headers := resp.headers
                      content := resp.content } }

/-! ### Routing and framework wrapper -/

/-- The method list of the `@app.api_route` decorator (`main.py:15`). -/
def routeMethods : List String := ["GET", "POST", "PUT", "DELETE"]

/-- FastAPI's fallback when no route matches the request method: a
`405 Method Not Allowed` JSON error, produced without invoking the
handler. -/
def methodNotAllowed : HttpResponse :=
  { status_code := 405
    headers := [("content-type", "application/json")]
    content := strBytes "\x7b\x22detail\x22:\x22Method Not Allowed\x22\x7d" }

/-- Starlette's `ServerErrorMiddleware` reply when an exception escapes
a handler: a plain-text 500. -/
def internalServerError : HttpResponse :=
  { status_code := 500
    headers := [("content-type", "text/plain; charset=utf-8")]
    content := strBytes "Internal Server Error" }

/-- One full request/response exchange as the caller sees it: FastAPI
routing dispatches to `proxy_request` only for the decorator's methods
(any path matches `/{path:path}`); an exception escaping the handler
becomes the framework's 500 response. -/
def serve (upstream : Upstream) (collector : Collector)
    (req : IncomingRequest) : List Effect × HttpResponse :=
  if req.method ∈ routeMethods then
    let out := proxy_request upstream collector req
    match out.result with
    | .ok resp => (out.trace, resp)
    | .error _ => (out.trace, internalServerError)
  else ([], methodNotAllowed)

/-! ### Concrete peers and requests, used to instantiate the theorems -/

/-- An upstream that replies 200 with a fixed body to everything. -/
def okUpstream : Upstream :=
  fun _ =>
    .ok { status_code := 200
          headers := [("content-type", "application/json")]
          content := strBytes "\x7b\x22cart\x22: \x22updated\x22\x7d" }

/-- An upstream that replies 302 with a `Location` header. -/
def redirectUpstream : Upstream :=
  fun _ =>
    .ok { status_code := 302
          headers := [("Location", "http://example.com/redirect")]
          content := [] }

/-- An unreachable upstream: every forward call raises. -/
def downUpstream : Upstream := fun _ => .exn

/-- A collector that accepts every event with a 200. -/
def okCollector : Collector := fun _ => .ok 200

/-- A collector whose every call raises (connection error / timeout). -/
def exnCollector : Collector := fun _ => .exn

/-- A well-formed cart-add request: `POST /cart`,
body `product_id=test-product-123&quantity=2`, session cookie. -/
def cartReq : IncomingRequest :=
  { method := "POST"
    path := "cart"
    query := ""
    headers := [("Content-Type", "application/x-www-form-urlencoded"),
                ("Host", "proxy.local")]
    cookies := [("session_id", "user-456")]
    bodyBytes := strBytes "product_id=test-product-123&quantity=2" }

/-- A `POST /cart` request whose body is not valid UTF-8 (so
`body.decode()` raises). -/
def malformedCartReq : IncomingRequest :=
  { cartReq with bodyBytes := [0x69, 0x6E, 0x76, 0x61, 0x6C, 0x69, 0x64, 0xFF, 0xFE] }

/-- A plain GET request with assorted headers and a query string. -/
def getReq : IncomingRequest :=
  { method := "GET"
    path := "products"
    query := "q=1"
    headers := [("Authorization", "Bearer token"), ("Host", "proxy.local"),
                ("Custom-Header", "custom-value")]
    cookies := []
    bodyBytes := [] }

/-- The same exchange with the method replaced by `PATCH`, which the
route decorator does not list. -/
def patchReq : IncomingRequest := { getReq with method := "PATCH" }

/-- A GET request carrying two headers whose names are
case-insensitively equal (`X-Trace` and `x-trace`), plus a `Host`
header. -/
def dupHeaderReq : IncomingRequest :=
  { method := "GET"
    path := "items"
    query := ""
    headers := [("X-Trace", "first"), ("Host", "proxy.local"), ("x-trace", "second")]
    cookies := []
    bodyBytes := [] }

/-- Modelled from the spec: the "502-class" upstream-failure statuses
(502 Bad Gateway through 504 Gateway Timeout) that a forwarding failure
is said to surface as. -/
def is502Class (n : Nat) : Prop := 502 ≤ n ∧ n ≤ 504

instance (n : Nat) : Decidable (is502Class n) := by
  unfold is502Class
  infer_instance

/-! ### Auxiliary lemmas

`parse_qs` (with `keep_blank_values=False`) never produces an empty
value, so Python's truthiness test `if product_id:` at `main.py:42`
coincides with "the decoded form has a `product_id` key".  The chain
below establishes that. -/

theorem utf8Decode_cons_ne_nil {b : Byte} {bs : List Byte} {cs : PyStr}
    (h : utf8Decode (b :: bs) = some cs) : cs ≠ [] := by
  unfold utf8Decode at h
  rw [List.length_cons] at h
  simp only [utf8DecodeFuel] at h
  split at h
  · obtain ⟨cs', -, h2⟩ := Option.map_eq_some'.mp h
    rw [← h2]
    exact List.cons_ne_nil _ _
  · cases h

theorem utf8DecodeReplace_ne_nil : ∀ {bs : List Byte}, bs ≠ [] → utf8DecodeReplace bs ≠ []
  | [], h => absurd rfl h
  | b :: bs, _ => by
    unfold utf8DecodeReplace
    rw [List.length_cons]
    simp only [utf8DecodeReplaceFuel]
    split
    all_goals exact List.cons_ne_nil _ _

theorem unquoteAuxFuel_ne_nil :
    ∀ (fuel : Nat) (s : PyStr), s.length ≤ fuel → ∀ (pending : List Byte),
      s ≠ [] ∨ pending ≠ [] → unquoteAuxFuel fuel s pending ≠ [] := by
  intro fuel
  induction fuel with
  | zero =>
    intro s hs pending hne
    have hnil : s = [] := List.eq_nil_of_length_eq_zero (Nat.le_zero.mp hs)
    subst hnil
    rcases hne with h | h
    · exact absurd rfl h
    · simp only [unquoteAuxFuel]
      exact utf8DecodeReplace_ne_nil (by simpa using h)
  | succ n ih =>
    intro s hs pending hne
    match s with
    | [] =>
      rcases hne with h | h
      · exact absurd rfl h
      · simp only [unquoteAuxFuel]
        exact utf8DecodeReplace_ne_nil (by simpa using h)
    | c :: rest =>
      simp only [unquoteAuxFuel]
      by_cases hc : c = '%'
      · rw [if_pos hc]
        split
        · split
          · apply ih _ ?_ _ (Or.inr (List.cons_ne_nil _ _))
            simp_all only [List.length_cons]
            omega
          · simp [List.append_eq_nil]
        · simp [List.append_eq_nil]
      · rw [if_neg hc]
        simp [List.append_eq_nil]

/-- `urllib.parse.unquote` maps a non-empty string to a non-empty
string. -/
theorem unquote_ne_nil {s : PyStr} (h : s ≠ []) : unquote s ≠ [] :=
  unquoteAuxFuel_ne_nil s.length s le_rfl [] (Or.inl h)

theorem plusToSpace_ne_nil {s : PyStr} (h : s ≠ []) : plusToSpace s ≠ [] := by
  simpa [plusToSpace] using h

/-- Every value produced by `parse_qsl` (with `keep_blank_values=False`)
is a non-empty string. -/
theorem parse_qsl_snd_ne_empty {qs : PyStr} {kv : String × String}
    (h : kv ∈ parse_qsl qs) : kv.2 ≠ "" := by
  unfold parse_qsl at h
  split at h
  · simp at h
  · rw [List.mem_filterMap] at h
    obtain ⟨nv, -, hnv⟩ := h
    split at hnv
    · cases hnv
    · split at hnv
      · cases hnv
      · split at hnv
        · cases hnv
        · rename_i hval
          obtain rfl := Option.some.inj hnv
          intro hemp
          have hd : unquote (plusToSpace _) = [] := congrArg String.data hemp
          exact unquote_ne_nil (plusToSpace_ne_nil hval) hd

/-- Every value appearing in a group of `groupPairs acc l` comes either
from a group of `acc` or from a pair of `l`. -/
theorem groupPairs_snd_mem :
    ∀ (l : List (String × String)) (acc : List (String × List String))
      (g : String × List String) (v : String),
      g ∈ groupPairs acc l → v ∈ g.2 →
      (∃ g' ∈ acc, v ∈ g'.2) ∨ ∃ kv ∈ l, kv.2 = v := by
  intro l
  induction l with
  | nil =>
    intro acc g v hg hv
    exact Or.inl ⟨g, by simpa [groupPairs] using hg, hv⟩
  | cons kv rest ih =>
    intro acc g v hg hv
    obtain ⟨k, v'⟩ := kv
    simp only [groupPairs] at hg
    split at hg
    · rcases ih _ g v hg hv with ⟨g', hg', hv'⟩ | ⟨kv', hkv', hveq⟩
      · rw [List.mem_map] at hg'
        obtain ⟨g₀, hg₀, rfl⟩ := hg'
        by_cases hk : g₀.1 = k
        · rw [if_pos hk] at hv'
          rcases List.mem_append.mp hv' with h1 | h1
          · exact Or.inl ⟨g₀, hg₀, h1⟩
          · have hv1 : v = v' := by simpa using h1
            exact Or.inr ⟨(k, v'), List.mem_cons_self _ _, hv1.symm⟩
        · rw [if_neg hk] at hv'
          exact Or.inl ⟨g₀, hg₀, hv'⟩
      · exact Or.inr ⟨kv', List.mem_cons_of_mem _ hkv', hveq⟩
    · rcases ih _ g v hg hv with ⟨g', hg', hv'⟩ | ⟨kv', hkv', hveq⟩
      · rcases List.mem_append.mp hg' with h1 | h1
        · exact Or.inl ⟨g', h1, hv'⟩
        · have hg1 : g' = (k, [v']) := by simpa using h1
          subst hg1
          have hv1 : v = v' := by simpa using hv'
          exact Or.inr ⟨(k, v'), List.mem_cons_self _ _, hv1.symm⟩
      · exact Or.inr ⟨kv', List.mem_cons_of_mem _ hkv', hveq⟩

theorem lookup_mem {l : List (String × List String)} {k : String} {g : List String}
    (h : l.lookup k = some g) : (k, g) ∈ l := by
  induction l with
  | nil => cases h
  | cons p t ih =>
    obtain ⟨a, b⟩ := p
    simp only [List.lookup] at h
    split at h
    · rename_i heq
      obtain rfl := Option.some.inj h
      have hka : k = a := by simpa using heq
      subst hka
      exact List.mem_cons_self _ _
    · exact List.mem_cons_of_mem _ (ih h)

/-- A first value extracted from the decoded form is never the empty
string, so the truthiness test `if product_id:` at `main.py:42` holds
exactly when the decoded form has a `product_id` key. -/
theorem getFirst_parse_qs_ne_empty {qs : PyStr} {k v : String}
    (h : getFirst (parse_qs qs) k = some v) : v ≠ "" := by
  unfold getFirst at h
  cases hl : (parse_qs qs).lookup k with
  | none => rw [hl] at h; cases h
  | some g =>
    rw [hl] at h
    simp only [Option.getD_some] at h
    have hmem : v ∈ g := by
      cases g with
      | nil => cases h
      | cons a t =>
        obtain rfl := Option.some.inj h
        exact List.mem_cons_self _ _
    have hkg : (k, g) ∈ parse_qs qs := lookup_mem hl
    rcases groupPairs_snd_mem (parse_qsl qs) [] (k, g) v
        (by simpa [parse_qs] using hkg) hmem with ⟨g', hg', -⟩ | ⟨kv', hkv', hveq⟩
    · simp at hg'
    · have hne := parse_qsl_snd_ne_empty hkv'
      rw [hveq] at hne
      exact hne

/-! ### Structure of one handler invocation -/

/-- When the cached body decodes and the decoded form has a
`product_id` key, the interception block performs exactly the one
collector POST with the cart-add event. -/
theorem interception_fst_event (collector : Collector) (body : List Byte)
    (cookies : List (String × String)) (decoded : PyStr) (P : String)
    (hdec : utf8Decode body = some decoded)
    (hpid : getFirst (parse_qs decoded) "product_id" = some P) :
    (interception collector body cookies).1 =
      [Effect.collectorPost (TOOLBOX_URL ++ "/mcp")
        { topic := "user-activity", event := "item_added_to_cart"
          data := { user_id := (cookies.lookup "session_id").getD "unknown_user"
                    product_id := P
                    quantity := getFirst (parse_qs decoded) "quantity" } } 1] := by
  have hP : P ≠ "" := getFirst_parse_qs_ne_empty hpid
  unfold interception
  rw [hdec]
  simp only [hpid, pyTruthy, Option.getD_some]
  rw [if_pos (by simpa using hP)]

/-- When the cached body does not decode, or the decoded form lacks a
`product_id` key, the interception block performs no outbound call. -/
theorem interception_fst_no_event (collector : Collector) (body : List Byte)
    (cookies : List (String × String))
    (h : utf8Decode body = none ∨ ∀ decoded, utf8Decode body = some decoded →
      getFirst (parse_qs decoded) "product_id" = none) :
    (interception collector body cookies).1 = [] := by
  unfold interception
  cases hdec : utf8Decode body with
  | none => rfl
  | some decoded =>
    rcases h with h | h
    · rw [h] at hdec; cases hdec
    · simp only [h decoded hdec, pyTruthy]
      rw [if_neg (by simp)]

/-- The effect trace of one handler invocation: one body read, the
interception block's effects when the route is intercepted, then the
forward — in that order, whatever the upstream's outcome. -/
theorem proxy_trace_shape (u : Upstream) (c : Collector) (req : IncomingRequest) :
    (proxy_request u c req).trace =
      Effect.readBody req.bodyBytes ::
        ((if req.method = "POST" ∧ req.path = "cart" then
            (interception c req.bodyBytes req.cookies).1 else []) ++
          [Effect.forward (forwardReq req)]) := by
  unfold proxy_request
  dsimp only
  cases u (forwardReq req) <;> rfl

/-- When the forward call returns a response, the handler returns it
(same status, headers, body). -/
theorem proxy_result_ok (u : Upstream) (c : Collector) (req : IncomingRequest)
    (resp : HttpResponse) (h : u (forwardReq req) = .ok resp) :
    (proxy_request u c req).result = .ok resp := by
  unfold proxy_request
  dsimp only
  rw [h]

/-- When the forward call raises, the exception escapes the handler. -/
theorem proxy_result_exn (u : Upstream) (c : Collector) (req : IncomingRequest)
    (h : u (forwardReq req) = .exn) :
    (proxy_request u c req).result = .error "requests exception" := by
  unfold proxy_request
  dsimp only
  rw [h]

/-- The interception block performs either no outbound call or exactly
one collector POST (in particular, never a forward and never a retry). -/
theorem interception_fst_cases (c : Collector) (body : List Byte)
    (cookies : List (String × String)) :
    (interception c body cookies).1 = [] ∨
    ∃ ev, (interception c body cookies).1 =
      [Effect.collectorPost (TOOLBOX_URL ++ "/mcp") ev 1] := by
  unfold interception
  split
  · exact Or.inl rfl
  · dsimp only
    split
    · exact Or.inr ⟨_, rfl⟩
    · exact Or.inl rfl

/-- The handler's result is independent of the collector: the
`try/except` swallows every outcome of the event POST. -/
theorem proxy_result_collector_independent (u : Upstream) (c₁ c₂ : Collector)
    (req : IncomingRequest) :
    (proxy_request u c₁ req).result = (proxy_request u c₂ req).result := by
  unfold proxy_request
  dsimp only
  cases u (forwardReq req) <;> rfl

/-! ### Claims -/

/-- C1: for every POST request to the exact path `/cart` whose body
decodes as URL-encoded form data containing a `product_id` key with
first value `P` (and optionally `quantity`), the handler makes exactly
one event-collector call — a POST to `<collector-base>/mcp` with the
event `topic "user-activity"`, `event "item_added_to_cart"`, and data
`user_id` = the `session_id` cookie value or `"unknown_user"` when
absent, `product_id` = `P`, `quantity` = the first `quantity` value or
null — and the forward to the upstream still occurs with the original
body bytes unmodified. -/
theorem cart_event_emission (u : Upstream) (c : Collector)
    (req : IncomingRequest) (decoded : PyStr) (P : String)
    (hm : req.method = "POST") (hp : req.path = "cart")
    (hdec : utf8Decode req.bodyBytes = some decoded)
    (hpid : getFirst (parse_qs decoded) "product_id" = some P) :
    collectorCalls (proxy_request u c req).trace =
      [(TOOLBOX_URL ++ "/mcp",
        { topic := "user-activity", event := "item_added_to_cart"
          data := { user_id := (req.cookies.lookup "session_id").getD "unknown_user"
                    product_id := P
                    quantity := getFirst (parse_qs decoded) "quantity" } }, 1)] ∧
    (forwardCalls (proxy_request u c req).trace).map (fun f => f.body) =
      [req.bodyBytes] := by
  have ht := proxy_trace_shape u c req
  rw [if_pos ⟨hm, hp⟩,
    interception_fst_event c req.bodyBytes req.cookies decoded P hdec hpid] at ht
  rw [ht]
  exact ⟨rfl, rfl⟩

/-- Witness for C1: the concrete cart request with body
`product_id=test-product-123&quantity=2` and cookie
`session_id=user-456`. -/
theorem cart_event_emission_witness :
    collectorCalls (proxy_request okUpstream okCollector cartReq).trace =
      [(TOOLBOX_URL ++ "/mcp",
        { topic := "user-activity", event := "item_added_to_cart"
          data := { user_id := (cartReq.cookies.lookup "session_id").getD "unknown_user"
                    product_id := "test-product-123"
                    quantity := getFirst
                      (parse_qs "product_id=test-product-123&quantity=2".data)
                      "quantity" } }, 1)] ∧
    (forwardCalls (proxy_request okUpstream okCollector cartReq).trace).map
        (fun f => f.body) =
      [cartReq.bodyBytes] :=
  cart_event_emission okUpstream okCollector cartReq
    "product_id=test-product-123&quantity=2".data "test-product-123"
    rfl rfl (by decide) (by decide)

/-- C2: for every request that is not a POST to the exact path `/cart`,
the handler makes exactly one outbound forward call and zero
event-collector calls, and when the upstream replies, the response
returned to the caller carries the upstream's status code, headers and
body bytes verbatim. -/
theorem non_cart_passthrough (u : Upstream) (c : Collector)
    (req : IncomingRequest) (h : ¬(req.method = "POST" ∧ req.path = "cart")) :
    forwardCalls (proxy_request u c req).trace = [forwardReq req] ∧
    collectorCalls (proxy_request u c req).trace = [] ∧
    ∀ resp, u (forwardReq req) = .ok resp →
      (proxy_request u c req).result = .ok resp := by
  have ht := proxy_trace_shape u c req
  rw [if_neg h] at ht
  rw [ht]
  exact ⟨rfl, rfl, fun resp hresp => proxy_result_ok u c req resp hresp⟩

/-- Witness for C2: a concrete GET request. -/
theorem non_cart_passthrough_witness :
    forwardCalls (proxy_request okUpstream okCollector getReq).trace =
      [forwardReq getReq] ∧
    collectorCalls (proxy_request okUpstream okCollector getReq).trace = [] ∧
    ∀ resp, okUpstream (forwardReq getReq) = .ok resp →
      (proxy_request okUpstream okCollector getReq).result = .ok resp :=
  non_cart_passthrough okUpstream okCollector getReq (by decide)

/-- C3: for every POST `/cart` request, every failure on the
interception path is swallowed without retry: the handler's result does
not depend on the collector's outcome (raising, timing out or any
status), at most one collector call is made (no retry), the forward
still occurs, the caller-visible response equals the upstream's
response when the upstream replies, and no collector call at all is
made when the body does not decode or the decoded form lacks a
`product_id` key. -/
theorem interception_failures_swallowed (u : Upstream) (req : IncomingRequest)
    (c₁ c₂ : Collector) (hm : req.method = "POST") (hp : req.path = "cart") :
    (proxy_request u c₁ req).result = (proxy_request u c₂ req).result ∧
    forwardCalls (proxy_request u c₁ req).trace = [forwardReq req] ∧
    (collectorCalls (proxy_request u c₁ req).trace).length ≤ 1 ∧
    (∀ resp, u (forwardReq req) = .ok resp →
      (proxy_request u c₁ req).result = .ok resp) ∧
    ((utf8Decode req.bodyBytes = none ∨
        ∀ decoded, utf8Decode req.bodyBytes = some decoded →
          getFirst (parse_qs decoded) "product_id" = none) →
      collectorCalls (proxy_request u c₁ req).trace = []) := by
  have ht := proxy_trace_shape u c₁ req
  rw [if_pos ⟨hm, hp⟩] at ht
  refine ⟨proxy_result_collector_independent u c₁ c₂ req, ?_, ?_, ?_, ?_⟩
  · rcases interception_fst_cases c₁ req.bodyBytes req.cookies with hi | ⟨ev, hi⟩ <;>
      rw [hi] at ht <;> rw [ht] <;> rfl
  · rcases interception_fst_cases c₁ req.bodyBytes req.cookies with hi | ⟨ev, hi⟩ <;>
      rw [hi] at ht <;> rw [ht]
    · exact Nat.zero_le 1
    · exact Nat.le_refl 1
  · exact fun resp hresp => proxy_result_ok u c₁ req resp hresp
  · intro hno
    rw [interception_fst_no_event c₁ req.bodyBytes req.cookies hno] at ht
    rw [ht]
    rfl

/-- Witness for C3: the concrete `POST /cart` request whose body is not
valid UTF-8, against a collector that raises. -/
theorem interception_failures_swallowed_witness :
    (proxy_request okUpstream exnCollector malformedCartReq).result =
      (proxy_request okUpstream okCollector malformedCartReq).result ∧
    forwardCalls (proxy_request okUpstream exnCollector malformedCartReq).trace =
      [forwardReq malformedCartReq] ∧
    (collectorCalls (proxy_request okUpstream exnCollector malformedCartReq).trace).length ≤ 1 ∧
    (∀ resp, okUpstream (forwardReq malformedCartReq) = .ok resp →
      (proxy_request okUpstream exnCollector malformedCartReq).result = .ok resp) ∧
    ((utf8Decode malformedCartReq.bodyBytes = none ∨
        ∀ decoded, utf8Decode malformedCartReq.bodyBytes = some decoded →
          getFirst (parse_qs decoded) "product_id" = none) →
      collectorCalls (proxy_request okUpstream exnCollector malformedCartReq).trace = []) :=
  interception_failures_swallowed okUpstream malformedCartReq exnCollector okCollector
    rfl rfl

/-- Every handler invocation performs exactly one forward call, and it
is the request of `forwardReq`. -/
theorem forwardCalls_proxy (u : Upstream) (c : Collector) (req : IncomingRequest) :
    forwardCalls (proxy_request u c req).trace = [forwardReq req] := by
  have ht := proxy_trace_shape u c req
  by_cases hic : req.method = "POST" ∧ req.path = "cart"
  · rw [if_pos hic] at ht
    rcases interception_fst_cases c req.bodyBytes req.cookies with hi | ⟨ev, hi⟩ <;>
      rw [hi] at ht <;> rw [ht] <;> rfl
  · rw [if_neg hic] at ht
    rw [ht]
    rfl

/-- C4 counterexample: with the upstream unreachable, the caller gets
the framework's generic 500 response, which is not a 502-class status.
-/
theorem forward_failure_counterexample :
    (serve downUpstream okCollector getReq).2.status_code = 500 ∧
    ¬ is502Class (serve downUpstream okCollector getReq).2.status_code := by
  constructor
  · decide
  · decide

/-- C4 (amended): a forwarding failure is not swallowed — the
`requests` exception escapes the handler, and the framework then
answers with its generic 500 Internal Server Error response (not a
502-class status). -/
theorem forward_failure_surfaces (u : Upstream) (c : Collector)
    (req : IncomingRequest) (hroute : req.method ∈ routeMethods)
    (hfail : u (forwardReq req) = .exn) :
    (proxy_request u c req).result = .error "requests exception" ∧
    (serve u c req).2 = internalServerError := by
  refine ⟨proxy_result_exn u c req hfail, ?_⟩
  unfold serve
  rw [if_pos hroute]
  dsimp only
  rw [proxy_result_exn u c req hfail]

/-- Witness for the amended C4 at a concrete GET request with the
upstream down. -/
theorem forward_failure_surfaces_witness :
    (proxy_request downUpstream okCollector cartReq).result =
      .error "requests exception" ∧
    (serve downUpstream okCollector cartReq).2 = internalServerError :=
  forward_failure_surfaces downUpstream okCollector cartReq (by decide) rfl

/-- Every entry of a built dict is one of the assigned pairs. -/
theorem pyDict_mem_sound :
    ∀ (l acc : List (String × String)) (p : String × String),
      p ∈ l.foldl dictInsert acc → p ∈ acc ∨ p ∈ l := by
  intro l
  induction l with
  | nil =>
    intro acc p h
    exact Or.inl h
  | cons kv rest ih =>
    intro acc p h
    rcases ih (dictInsert acc kv) p h with h' | h'
    · unfold dictInsert at h'
      split at h'
      · rw [List.mem_map] at h'
        obtain ⟨q, hq, heq⟩ := h'
        by_cases hk : q.1 = kv.1
        · rw [if_pos hk] at heq
          refine Or.inr ?_
          rw [← heq, hk]
          exact List.mem_cons_self _ _
        · rw [if_neg hk] at heq
          rw [← heq]
          exact Or.inl hq
      · rcases List.mem_append.mp h' with h' | h'
        · exact Or.inl h'
        · have hp : p = kv := by simpa using h'
          subst hp
          exact Or.inr (List.mem_cons_self _ _)
    · exact Or.inr (List.mem_cons_of_mem _ h')

/-- A dict assignment keeps every key already present. -/
theorem dictInsert_key_preserved {acc : List (String × String)} {n v : String}
    (kv : String × String) (h : (n, v) ∈ acc) :
    ∃ v', (n, v') ∈ dictInsert acc kv := by
  unfold dictInsert
  split
  · refine ⟨if n = kv.1 then kv.2 else v, ?_⟩
    rw [List.mem_map]
    refine ⟨(n, v), h, ?_⟩
    by_cases hk : n = kv.1 <;> simp [hk]
  · exact ⟨v, List.mem_append_left _ h⟩

/-- A dict assignment makes the assigned key present. -/
theorem dictInsert_key_inserted (acc : List (String × String))
    (kv : String × String) : ∃ v', (kv.1, v') ∈ dictInsert acc kv := by
  unfold dictInsert
  split
  · rename_i hany
    rw [List.any_eq_true] at hany
    obtain ⟨q, hq, hq1⟩ := hany
    have hq1' : q.1 = kv.1 := by simpa using hq1
    refine ⟨kv.2, ?_⟩
    rw [List.mem_map]
    refine ⟨q, hq, ?_⟩
    rw [if_pos hq1', hq1']
  · exact ⟨kv.2, List.mem_append_right _ (by simp)⟩

/-- Every assigned key is present in the built dict. -/
theorem pyDict_key_present :
    ∀ (l acc : List (String × String)) (n v : String),
      (n, v) ∈ acc ∨ (n, v) ∈ l → ∃ v', (n, v') ∈ l.foldl dictInsert acc := by
  intro l
  induction l with
  | nil =>
    intro acc n v h
    rcases h with h | h
    · exact ⟨v, h⟩
    · simp at h
  | cons kv rest ih =>
    intro acc n v h
    rcases h with h | h
    · obtain ⟨v', hv'⟩ := dictInsert_key_preserved kv h
      exact ih (dictInsert acc kv) n v' (Or.inl hv')
    · rcases List.mem_cons.mp h with h | h
      · have hn : n = kv.1 := congrArg Prod.fst h
        obtain ⟨v', hv'⟩ := dictInsert_key_inserted acc kv
        exact ih (dictInsert acc kv) n v' (Or.inl (by rw [hn]; exact hv'))
      · exact ih (dictInsert acc kv) n v (Or.inr h)

/-- Building a dict from pairs with pairwise-distinct keys keeps every
pair as it is. -/
theorem pyDict_nodup :
    ∀ (l acc : List (String × String)),
      l.Pairwise (fun a b => a.1 ≠ b.1) →
      (∀ p ∈ acc, ∀ q ∈ l, p.1 ≠ q.1) →
      l.foldl dictInsert acc = acc ++ l := by
  intro l
  induction l with
  | nil =>
    intro acc _ _
    simp
  | cons kv rest ih =>
    intro acc hpw hdisj
    have hnotin : acc.any (fun p => p.1 = kv.1) = false := by
      rw [List.any_eq_false]
      intro p hp
      simpa using hdisj p hp kv (List.mem_cons_self _ _)
    have hstep : dictInsert acc kv = acc ++ [kv] := by
      simp [dictInsert, hnotin]
    rw [List.foldl_cons, hstep,
      ih (acc ++ [kv]) (List.pairwise_cons.mp hpw).2 ?_, List.append_assoc]
    · rfl
    · intro p hp q hq
      rcases List.mem_append.mp hp with hp | hp
      · exact hdisj p hp q (List.mem_cons_of_mem _ hq)
      · have hpkv : p = kv := by simpa using hp
        subst hpkv
        exact (List.pairwise_cons.mp hpw).1 q hq

/-- C5 counterexample: a request carrying two case-insensitively equal
header names (`X-Trace: first` and `x-trace: second`).  The dict
comprehension at `main.py:60` collapses them, so the incoming non-Host
pair `("X-Trace", "first")` has no counterpart among the forwarded
headers — the claim that all non-Host headers are present unchanged
fails. -/
theorem duplicate_header_dropped_counterexample :
    ("X-Trace", "first") ∈ dupHeaderReq.headers ∧
    lowerName "X-Trace" ≠ "host" ∧
    forwardCalls (proxy_request okUpstream okCollector dupHeaderReq).trace =
      [forwardReq dupHeaderReq] ∧
    (forwardReq dupHeaderReq).headers = [("x-trace", "second")] ∧
    (lowerName "X-Trace", "first") ∉ (forwardReq dupHeaderReq).headers := by decide

/-- C5 (amended): the forwarded headers are the Python dict of the
lowercased incoming headers with `Host` removed (case-insensitive
match): every non-Host incoming header name is present; every forwarded
pair is a non-Host incoming pair (lowercased name, value unchanged) —
so nothing is invented and `Host` never passes; and whenever no two
incoming header names are case-insensitively equal, every non-Host
header is present with its value unchanged.  The only departure from
the original claim: a repeated name collapses to one entry, last value
winning, as a dict comprehension does. -/
theorem host_header_scrubbed_dict (u : Upstream) (c : Collector)
    (req : IncomingRequest) (f : ForwardedRequest)
    (hf : f ∈ forwardCalls (proxy_request u c req).trace) :
    (∀ n v, (n, v) ∈ req.headers → lowerName n ≠ "host" →
      ∃ v', (lowerName n, v') ∈ f.headers) ∧
    (∀ n v, (n, v) ∈ f.headers →
      n ≠ "host" ∧ ∃ m, (m, v) ∈ req.headers ∧ n = lowerName m) ∧
    ((starletteHeaders req.headers).Pairwise (fun a b => a.1 ≠ b.1) →
      ∀ n v, (n, v) ∈ req.headers → lowerName n ≠ "host" →
        (lowerName n, v) ∈ f.headers) := by
  rw [forwardCalls_proxy] at hf
  obtain rfl : f = forwardReq req := by simpa using hf
  refine ⟨?_, ?_, ?_⟩
  · intro n v hmem hne
    have hfil : (lowerName n, v) ∈
        (starletteHeaders req.headers).filter (fun kv => kv.1 ≠ "host") :=
      List.mem_filter.mpr ⟨List.mem_map.mpr ⟨(n, v), hmem, rfl⟩, by simpa using hne⟩
    exact pyDict_key_present _ [] (lowerName n) v (Or.inr hfil)
  · intro n v hmem
    have hmem' : (n, v) ∈
        (starletteHeaders req.headers).filter (fun kv => kv.1 ≠ "host") := by
      rcases pyDict_mem_sound _ [] (n, v) hmem with h | h
      · simp at h
      · exact h
    obtain ⟨hmm, hp⟩ := List.mem_filter.mp hmem'
    obtain ⟨⟨m, v'⟩, hmv, heq⟩ := List.mem_map.mp hmm
    have h1 : lowerName m = n := congrArg Prod.fst heq
    have h2 : v' = v := congrArg Prod.snd heq
    subst h1
    subst h2
    exact ⟨by simpa using hp, ⟨m, hmv, rfl⟩⟩
  · intro hnd n v hmem hne
    have hfil : (lowerName n, v) ∈
        (starletteHeaders req.headers).filter (fun kv => kv.1 ≠ "host") :=
      List.mem_filter.mpr ⟨List.mem_map.mpr ⟨(n, v), hmem, rfl⟩, by simpa using hne⟩
    have heq : pyDict
        ((starletteHeaders req.headers).filter (fun kv => kv.1 ≠ "host")) =
        (starletteHeaders req.headers).filter (fun kv => kv.1 ≠ "host") := by
      have hfold := pyDict_nodup
        ((starletteHeaders req.headers).filter (fun kv => kv.1 ≠ "host")) []
        (List.Pairwise.filter _ hnd)
        (by intro p hp; exact absurd hp (List.not_mem_nil p))
      simpa [pyDict] using hfold
    show (lowerName n, v) ∈
      pyDict ((starletteHeaders req.headers).filter (fun kv => kv.1 ≠ "host"))
    rw [heq]
    exact hfil

/-- Witness for the amended C5 at a concrete request carrying
`Authorization`, `Host` and a custom header. -/
theorem host_header_scrubbed_dict_witness :
    (∀ n v, (n, v) ∈ getReq.headers → lowerName n ≠ "host" →
      ∃ v', (lowerName n, v') ∈ (forwardReq getReq).headers) ∧
    (∀ n v, (n, v) ∈ (forwardReq getReq).headers →
      n ≠ "host" ∧ ∃ m, (m, v) ∈ getReq.headers ∧ n = lowerName m) ∧
    ((starletteHeaders getReq.headers).Pairwise (fun a b => a.1 ≠ b.1) →
      ∀ n v, (n, v) ∈ getReq.headers → lowerName n ≠ "host" →
        (lowerName n, v) ∈ (forwardReq getReq).headers) :=
  host_header_scrubbed_dict okUpstream okCollector getReq (forwardReq getReq)
    (by decide)

/-- C6: when the upstream responds with a 3xx status carrying a
`Location` header, the proxy relays that status and those headers
unmodified, issues exactly one outbound request — to the computed
upstream target, with redirect-following disabled — and in particular
no request to the `Location` target. -/
theorem redirects_relayed_unfollowed (u : Upstream) (c : Collector)
    (req : IncomingRequest) (resp : HttpResponse) (loc : String)
    (hresp : u (forwardReq req) = .ok resp)
    (_h3xx : 300 ≤ resp.status_code ∧ resp.status_code ≤ 399)
    (_hloc : ("Location", loc) ∈ resp.headers)
    (hne : loc ≠ REAL_FRONTEND_URL ++ "/" ++ req.path) :
    (proxy_request u c req).result = .ok resp ∧
    (forwardCalls (proxy_request u c req).trace).map (fun f => f.url) =
      [REAL_FRONTEND_URL ++ "/" ++ req.path] ∧
    ∀ f ∈ forwardCalls (proxy_request u c req).trace,
      f.allow_redirects = false ∧ f.url ≠ loc := by
  refine ⟨proxy_result_ok u c req resp hresp, ?_, ?_⟩
  · rw [forwardCalls_proxy]
    rfl
  · intro f hf
    rw [forwardCalls_proxy] at hf
    obtain rfl : f = forwardReq req := by simpa using hf
    exact ⟨rfl, fun hurl => hne hurl.symm⟩

/-- Witness for C6: an upstream answering 302 with a `Location`. -/
theorem redirects_relayed_unfollowed_witness :
    (proxy_request redirectUpstream okCollector getReq).result =
      .ok { status_code := 302
            headers := [("Location", "http://example.com/redirect")]
            content := [] } ∧
    (forwardCalls (proxy_request redirectUpstream okCollector getReq).trace).map
        (fun f => f.url) =
      [REAL_FRONTEND_URL ++ "/" ++ getReq.path] ∧
    ∀ f ∈ forwardCalls (proxy_request redirectUpstream okCollector getReq).trace,
      f.allow_redirects = false ∧ f.url ≠ "http://example.com/redirect" :=
  redirects_relayed_unfollowed redirectUpstream okCollector getReq
    { status_code := 302
      headers := [("Location", "http://example.com/redirect")]
      content := [] }
    "http://example.com/redirect" rfl (by decide) (by decide) (by decide)

/-- C7 counterexample: for the concrete request to path `products` with
query string `q=1`, the forward URL is the base plus the path alone —
no forwarded request carries `.../products?q=1`; the query string is
dropped, contradicting the claim that `path?query` is forwarded as
`upstream-base/path?query`. -/
theorem query_string_dropped_counterexample :
    getReq.path = "products" ∧ getReq.query = "q=1" ∧
    (forwardCalls (proxy_request okUpstream okCollector getReq).trace).map
        (fun f => f.url) =
      ["http://frontend-real:8080/products"] ∧
    ∀ f ∈ forwardCalls (proxy_request okUpstream okCollector getReq).trace,
      f.url ≠ "http://frontend-real:8080/products?q=1" := by decide

/-- C7 (amended): for every request, the forward target URL is the
fixed upstream base concatenated with `/` and the original path; the
query string is never appended (the handler builds the target from the
route's path capture alone). -/
theorem target_url_base_plus_path (u : Upstream) (c : Collector)
    (req : IncomingRequest) :
    (forwardCalls (proxy_request u c req).trace).map (fun f => f.url) =
      [REAL_FRONTEND_URL ++ "/" ++ req.path] := by
  rw [forwardCalls_proxy]
  rfl

/-- C8 counterexample: a PATCH request never reaches the handler — the
route decorator's method list rejects it, the framework answers 405 and
no outbound call of any kind is made, so the proxy does impose a method
allow-list. -/
theorem patch_rejected_counterexample :
    patchReq.method = "PATCH" ∧
    (serve okUpstream okCollector patchReq).1 = [] ∧
    (serve okUpstream okCollector patchReq).2.status_code = 405 := by decide

/-- C8 (amended): the route imposes no path allow-list, but only the
decorator's four methods reach the handler: every request whose method
is GET, POST, PUT or DELETE is forwarded (exactly one forward call),
whatever its path; other methods are answered 405 without any outbound
call. -/
theorem allowed_methods_forwarded (u : Upstream) (c : Collector)
    (req : IncomingRequest) (h : req.method ∈ routeMethods) :
    forwardCalls (serve u c req).1 = [forwardReq req] := by
  unfold serve
  rw [if_pos h]
  dsimp only
  cases (proxy_request u c req).result <;> exact forwardCalls_proxy u c req

/-- Witness for the amended C8 at a concrete GET request. -/
theorem allowed_methods_forwarded_witness :
    forwardCalls (serve okUpstream okCollector getReq).1 = [forwardReq getReq] :=
  allowed_methods_forwarded okUpstream okCollector getReq (by decide)

/-- Every effect the interception block emits is the collector POST of
an event parsed from the block's input bytes. -/
theorem interception_fst_sound (c : Collector) (body : List Byte)
    (cookies : List (String × String)) (eff : Effect)
    (h : eff ∈ (interception c body cookies).1) :
    ∃ decoded, utf8Decode body = some decoded ∧
      eff = Effect.collectorPost (TOOLBOX_URL ++ "/mcp")
        { topic := "user-activity", event := "item_added_to_cart"
          data := { user_id := (cookies.lookup "session_id").getD "unknown_user"
                    product_id := (getFirst (parse_qs decoded) "product_id").getD ""
                    quantity := getFirst (parse_qs decoded) "quantity" } } 1 := by
  unfold interception at h
  split at h
  · simp at h
  · rename_i decoded hdec
    dsimp only at h
    split at h
    · refine ⟨decoded, hdec, ?_⟩
      simpa using h
    · simp at h

/-- Any event-collector call in a handler trace posts an event whose
form fields were parsed from the handler's cached body bytes. -/
theorem collectorCalls_proxy_sound (u : Upstream) (c : Collector)
    (req : IncomingRequest) (e : String × CartEvent × Nat)
    (h : e ∈ collectorCalls (proxy_request u c req).trace) :
    ∃ decoded, utf8Decode req.bodyBytes = some decoded ∧
      e = (TOOLBOX_URL ++ "/mcp",
        { topic := "user-activity", event := "item_added_to_cart"
          data := { user_id := (req.cookies.lookup "session_id").getD "unknown_user"
                    product_id := (getFirst (parse_qs decoded) "product_id").getD ""
                    quantity := getFirst (parse_qs decoded) "quantity" } }, 1) := by
  have ht := proxy_trace_shape u c req
  rw [ht] at h
  by_cases hic : req.method = "POST" ∧ req.path = "cart"
  · rw [if_pos hic] at h
    simp only [collectorCalls, List.filterMap_cons, List.filterMap_append,
      List.filterMap_nil, List.mem_append, List.append_nil] at h
    rw [List.mem_filterMap] at h
    obtain ⟨eff, heff, hge⟩ := h
    obtain ⟨decoded, hdec, rfl⟩ := interception_fst_sound c req.bodyBytes req.cookies eff heff
    refine ⟨decoded, hdec, ?_⟩
    simpa using hge.symm
  · rw [if_neg hic] at h
    simp [collectorCalls] at h

/-- C9: the raw body is read from the transport exactly once, as the
first action before any branching; that single cached value is the body
of the forwarded request, and any emitted event's form fields were
decoded from those same bytes — the body is never re-fetched. -/
theorem body_read_once (u : Upstream) (c : Collector) (req : IncomingRequest) :
    bodyReads (proxy_request u c req).trace = [req.bodyBytes] ∧
    (proxy_request u c req).trace.head? = some (Effect.readBody req.bodyBytes) ∧
    (∀ f ∈ forwardCalls (proxy_request u c req).trace, f.body = req.bodyBytes) ∧
    ∀ e ∈ collectorCalls (proxy_request u c req).trace, ∃ decoded,
      utf8Decode req.bodyBytes = some decoded ∧
      e.2.1.data.product_id = (getFirst (parse_qs decoded) "product_id").getD "" := by
  refine ⟨?_, ?_, ?_, ?_⟩
  · have ht := proxy_trace_shape u c req
    by_cases hic : req.method = "POST" ∧ req.path = "cart"
    · rw [if_pos hic] at ht
      rcases interception_fst_cases c req.bodyBytes req.cookies with hi | ⟨ev, hi⟩ <;>
        rw [hi] at ht <;> rw [ht] <;> rfl
    · rw [if_neg hic] at ht
      rw [ht]
      rfl
  · have ht := proxy_trace_shape u c req
    rw [ht]
    rfl
  · intro f hf
    rw [forwardCalls_proxy] at hf
    obtain rfl : f = forwardReq req := by simpa using hf
    rfl
  · intro e he
    obtain ⟨decoded, hdec, rfl⟩ := collectorCalls_proxy_sound u c req e he
    exact ⟨decoded, hdec, rfl⟩

/-- C10: for every intercepted `POST /cart` request whose form body has
a `product_id`, the handler's effects are exactly the body read, then
the collector POST (carrying its 1-second timeout), then the forward —
the synchronous event-emission attempt finishes, by success, exception
or timeout, strictly before the forward call begins. -/
theorem event_emitted_before_forward (u : Upstream) (c : Collector)
    (req : IncomingRequest) (decoded : PyStr) (P : String)
    (hm : req.method = "POST") (hp : req.path = "cart")
    (hdec : utf8Decode req.bodyBytes = some decoded)
    (hpid : getFirst (parse_qs decoded) "product_id" = some P) :
    (proxy_request u c req).trace =
      [Effect.readBody req.bodyBytes,
       Effect.collectorPost (TOOLBOX_URL ++ "/mcp")
        { topic := "user-activity", event := "item_added_to_cart"
          data := { user_id := (req.cookies.lookup "session_id").getD "unknown_user"
                    product_id := P
                    quantity := getFirst (parse_qs decoded) "quantity" } } 1,
       Effect.forward (forwardReq req)] := by
  have ht := proxy_trace_shape u c req
  rw [if_pos ⟨hm, hp⟩,
    interception_fst_event c req.bodyBytes req.cookies decoded P hdec hpid] at ht
  rw [ht]
  rfl

/-- Witness for C10: the concrete cart request, with a collector that
raises — the trace is the same three effects in the same order. -/
theorem event_emitted_before_forward_witness :
    (proxy_request okUpstream exnCollector cartReq).trace =
      [Effect.readBody cartReq.bodyBytes,
       Effect.collectorPost (TOOLBOX_URL ++ "/mcp")
        { topic := "user-activity", event := "item_added_to_cart"
          data := { user_id := (cartReq.cookies.lookup "session_id").getD "unknown_user"
                    product_id := "test-product-123"
                    quantity := getFirst
                      (parse_qs "product_id=test-product-123&quantity=2".data)
                      "quantity" } } 1,
       Effect.forward (forwardReq cartReq)] :=
  event_emitted_before_forward okUpstream exnCollector cartReq
    "product_id=test-product-123&quantity=2".data "test-product-123"
    rfl rfl (by decide) (by decide)

end FrontendProxy
